import Mathlib

/-!
# WinJoystickMex.c: the joystick query MEX entry point

A shallow embedding of `mexFunction` of `src/WinJoystickMex.c` and the
properties of its three outputs (normalised x, normalised y, packed buttons).

* C `double` values are embedded as rationals: every finite double is a
  rational, and each arithmetic operation of the source is the exact rational
  operation followed by `roundToDouble`, the IEEE-754 binary64 rounding to
  nearest with ties to even.
* `UINT` values are natural numbers, `int8_t` values are integers.
* The platform call `joyGetPos` and the constants of `mmsystem.h` are
  parameters of the embedding.
-/

namespace WinJoystickMex

/-! ## IEEE-754 binary64 arithmetic on rationals -/

/-- Nearest integer to `q`, a tie going to the even neighbour. -/
def roundHalfEven (q : ℚ) : ℤ :=
  let f := ⌊q⌋
  let r := q - f
  if r < 1 / 2 then f
  else if 1 / 2 < r then f + 1
  else if f % 2 = 0 then f else f + 1

/-- Exponent of the unit in the last place of the binary64 number nearest to
`q`: 52 below the binary exponent of `q`, the exponent being held at `-1022`
in the subnormal range. -/
def ulpExp (q : ℚ) : ℤ := max (Int.log 2 |q|) (-1022) - 52

/-- Rounding of an exact result to binary64, to nearest with ties to even.
Results beyond the largest finite double are not modelled: every value this
program computes has magnitude below 8. -/
def roundToDouble (q : ℚ) : ℚ := roundHalfEven (q / 2 ^ ulpExp q) * 2 ^ ulpExp q

/-- Double division `a / b`. -/
def fdiv (a b : ℚ) : ℚ := roundToDouble (a / b)

/-- Double multiplication `a * b`. -/
def fmul (a b : ℚ) : ℚ := roundToDouble (a * b)

/-- Double addition `a + b`. -/
def fadd (a b : ℚ) : ℚ := roundToDouble (a + b)

/-- Double subtraction `a - b`. -/
def fsub (a b : ℚ) : ℚ := roundToDouble (a - b)

/-- The function `round` of `math.h`: nearest integer, halfway cases away from
zero. The result is an integral double, embedded as an integer. -/
def round (d : ℚ) : ℤ := if 0 ≤ d then ⌊d + 1 / 2⌋ else -⌊-d + 1 / 2⌋

/-- The conversion `(int8_t)` of an integral double: the value itself when it
lies in `-128 .. 127`. C leaves the conversion of a value outside that range
undefined; it is reduced modulo `2 ^ 8` into the range here. -/
def toInt8 (z : ℤ) : ℤ := (z + 128) % 256 - 128

/-- The conversion `(uint8_t)` of an integer value: reduction modulo `2 ^ 8`. -/
def toUInt8 (n : ℕ) : ℕ := n % 256

/-- The conversion `(int)` of a `UINT`: values from `2 ^ 31` on wrap to the
negative range. -/
def toInt (u : ℕ) : ℤ :=
  if u % 2 ^ 32 < 2 ^ 31 then ((u % 2 ^ 32 : ℕ) : ℤ) else ((u % 2 ^ 32 : ℕ) : ℤ) - 2 ^ 32

/-- The conversion `(unsigned int)` of a double: the fractional part is
discarded. C leaves the conversion undefined when the integer does not fit;
it is reduced modulo `2 ^ 32` here. -/
def toUnsignedInt (d : ℚ) : ℕ :=
  ((if 0 ≤ d then ⌊d⌋ else -⌊-d⌋) % 2 ^ 32).toNat

/-- The constant `MAX_VAL` (line 30), `65535.0`. -/
def MAX_VAL : ℚ := 65535

/-- The argument of `round` on line 99, as the double the program computes:
`(((double)joy.wXpos) / MAX_VAL) * 2.0 - 1.0`. The conversion of a `UINT` to
`double` is exact. -/
def doubleX (wXpos : ℕ) : ℚ := fsub (fmul (fdiv (wXpos : ℚ) MAX_VAL) 2) 1

/-- The argument of `round` on line 103, as the double the program computes:
`(((double)joy.wYpos) / MAX_VAL) * -2.0 + 1.0`. -/
def doubleY (wYpos : ℕ) : ℚ := fadd (fmul (fdiv (wYpos : ℚ) MAX_VAL) (-2)) 1

/-- The value stored on line 99, `(int8_t)round(...)`. -/
def normalizeX (wXpos : ℕ) : ℤ := toInt8 (round (doubleX wXpos))

/-- The value stored on line 103, `(int8_t)round(...)`. -/
def normalizeY (wYpos : ℕ) : ℤ := toInt8 (round (doubleY wYpos))

/-- The quantity of line 99 in exact rational arithmetic,
`(raw / 65535) * 2 - 1`. -/
def exactX (raw : ℕ) : ℚ := ((raw : ℚ) / MAX_VAL) * 2 - 1

/-- The quantity of line 103 in exact rational arithmetic,
`(raw / 65535) * -2 + 1`. -/
def exactY (raw : ℕ) : ℚ := ((raw : ℚ) / MAX_VAL) * (-2) + 1

/-! ## The platform interface -/

/-- The constants of the Windows SDK header `mmsystem.h` (reached through
`windows.h`) that the source names. The header is not part of the repository,
so the constants are a parameter of the embedding. -/
structure MMSystem where
  JOYERR_NOERROR : ℕ
  MMSYSERR_NODRIVER : ℕ
  JOYERR_NOCANDO : ℕ
  MMSYSERR_INVALPARAM : ℕ
  JOYERR_PARMS : ℕ
  JOYERR_UNPLUGGED : ℕ
  JOY_BUTTON1 : ℕ
  JOY_BUTTON2 : ℕ
  JOY_BUTTON3 : ℕ
  JOY_BUTTON4 : ℕ
  JOY_BUTTON5 : ℕ
  JOY_BUTTON6 : ℕ
  JOY_BUTTON7 : ℕ
  JOY_BUTTON8 : ℕ

/-- The result codes that `mexFunction` names. -/
def MMSystem.codes (K : MMSystem) : List ℕ :=
  [K.JOYERR_NOERROR, K.MMSYSERR_NODRIVER, K.JOYERR_NOCANDO, K.MMSYSERR_INVALPARAM,
    K.JOYERR_PARMS, K.JOYERR_UNPLUGGED]

/-- The result codes are pairwise distinct values of type `int`: what the C
compiler demands of the `case` labels of one `switch`, and the platform of its
success code. -/
def MMSystem.Consistent (K : MMSystem) : Prop :=
  K.codes.Nodup ∧ ∀ c ∈ K.codes, c < 2 ^ 31

instance (K : MMSystem) : Decidable K.Consistent := by
  unfold MMSystem.Consistent; infer_instance

/-- The flag of button `i + 1` is bit `i` of the button bitfield. -/
def MMSystem.ButtonBits (K : MMSystem) : Prop :=
  K.JOY_BUTTON1 = 2 ^ 0 ∧ K.JOY_BUTTON2 = 2 ^ 1 ∧ K.JOY_BUTTON3 = 2 ^ 2 ∧
  K.JOY_BUTTON4 = 2 ^ 3 ∧ K.JOY_BUTTON5 = 2 ^ 4 ∧ K.JOY_BUTTON6 = 2 ^ 5 ∧
  K.JOY_BUTTON7 = 2 ^ 6 ∧ K.JOY_BUTTON8 = 2 ^ 7

/-- The flag of button `i + 1`, for `i` in `0 .. 7`. -/
def MMSystem.JOY_BUTTON (K : MMSystem) (i : ℕ) : ℕ :=
  match i with
  | 0 => K.JOY_BUTTON1
  | 1 => K.JOY_BUTTON2
  | 2 => K.JOY_BUTTON3
  | 3 => K.JOY_BUTTON4
  | 4 => K.JOY_BUTTON5
  | 5 => K.JOY_BUTTON6
  | 6 => K.JOY_BUTTON7
  | _ => K.JOY_BUTTON8

instance (K : MMSystem) : Decidable K.ButtonBits := by
  unfold MMSystem.ButtonBits; infer_instance

/-- The values the constants have in the Windows SDK. -/
def mmsystem : MMSystem where
  JOYERR_NOERROR := 0
  MMSYSERR_NODRIVER := 6
  JOYERR_NOCANDO := 166
  MMSYSERR_INVALPARAM := 11
  JOYERR_PARMS := 165
  JOYERR_UNPLUGGED := 167
  JOY_BUTTON1 := 1
  JOY_BUTTON2 := 2
  JOY_BUTTON3 := 4
  JOY_BUTTON4 := 8
  JOY_BUTTON5 := 16
  JOY_BUTTON6 := 32
  JOY_BUTTON7 := 64
  JOY_BUTTON8 := 128

/-- The fields of the platform structure `JOYINFO`, each a `UINT`. -/
structure JOYINFO where
  wXpos : ℕ
  wYpos : ℕ
  wZpos : ℕ
  wButtons : ℕ
deriving DecidableEq

/-- An argument of a `mexPrintf` call. -/
inductive PrintArg where
  | int (i : ℤ)
  | str (s : String)
deriving DecidableEq

/-- What a call of `mexFunction` does to the outside, in order: text it prints
and queries it makes of the platform. -/
inductive Event where
  | mexPrintf (fmt : String) (args : List PrintArg)
  | joyGetPos (uJoyID : ℕ)
deriving DecidableEq

/-- What a call of `mexFunction` leaves behind: its events, the three output
slots `plhs[0]`, `plhs[1]`, `plhs[2]` (`none` while unassigned), and the
message of `mexErrMsgTxt` when the call ended in it. -/
structure Outcome where
  trace : List Event
  plhs0 : Option ℤ
  plhs1 : Option ℤ
  plhs2 : Option ℕ
  error : Option String
deriving DecidableEq

/-- A platform that answers every query with the same result code and the
same buffer contents. -/
def fixedPlatform (rc : ℕ) (joy : JOYINFO) : ℕ → ℕ × JOYINFO := fun _ => (rc, joy)

/-! ## The entry point -/

/-- The usage text of lines 44-53. -/
def usage (me : String) : List Event :=
  [ .mexPrintf "WinJoystickMex: A simple Matlab/Octave MEX file for query of simple joysticks on Microsoft Windows\n\n" [],
    .mexPrintf "(C) 2009-2012 by Mario Kleiner -- Licensed to you under the MIT license.\n" [],
    .mexPrintf "This file is part of Psychtoolbox-3 but should also work independently.\n" [],
    .mexPrintf "\n" [],
    .mexPrintf "Usage:\n\n" [],
    .mexPrintf "[x, y, buttons] = %s(joystickId);\n" [.str me],
    .mexPrintf "- Query joystick device 'joystickId'. This can be any number between 0 and 15.\n" [],
    .mexPrintf "0 is the first connected joystick, 1 the 2nd, etc...\n" [],
    .mexPrintf "x, y are the current x, y directions of the joystick (-1 is left/down; +1 is right/up respectively).\n" [],
    .mexPrintf "buttons is a uint8 bit-packed value, with button-1 pressed mapped as 1 on bit-0 (LSB).\n\n\n" [] ]

/-- The statement `*out |= ((wButtons & flag) ? 1 : 0) << shift` on a
`uint8_t` target. -/
def orButton (out wButtons flag shift : ℕ) : ℕ :=
  toUInt8 (out ||| ((if wButtons &&& flag ≠ 0 then 1 else 0) <<< shift))

/-- The button packing of lines 108-118. -/
def packButtons (K : MMSystem) (wButtons : ℕ) : ℕ :=
  let out := 0
  let out := orButton out wButtons K.JOY_BUTTON1 0
  let out := orButton out wButtons K.JOY_BUTTON2 1
  let out := orButton out wButtons K.JOY_BUTTON3 2
  let out := orButton out wButtons K.JOY_BUTTON4 3
  let out := orButton out wButtons K.JOY_BUTTON5 4
  let out := orButton out wButtons K.JOY_BUTTON6 5
  let out := orButton out wButtons K.JOY_BUTTON7 6
  let out := orButton out wButtons K.JOY_BUTTON8 7
  out

/-- A call that ends in `mexErrMsgTxt`, which does not return to its caller:
the call stops there with no output slot assigned. -/
def raise (trace : List Event) (msg : String) : Outcome :=
  { trace := trace, plhs0 := none, plhs1 := none, plhs2 := none, error := some msg }

/-- The line printed ahead of every error, line 64 and its copies. -/
def failedCall (cmd : ℕ) : Event :=
  .mexPrintf "For failed joystick call with 'joystickId' = %i.\n" [.int (toInt cmd)]

/-- The entry point `mexFunction` (lines 33-123). `joyGetPos uJoyID` is the
platform call: its result code and the contents of the buffer `joy` after it.
`me` is the name `mexFunctionName()` gives, `prhs0` the scalar
`mxGetScalar(prhs[0])`. -/
def mexFunction (K : MMSystem) (joyGetPos : ℕ → ℕ × JOYINFO) (me : String)
    (nrhs : ℤ) (prhs0 : ℚ) : Outcome :=
  if nrhs < 1 then
    { trace := usage me, plhs0 := none, plhs1 := none, plhs2 := none, error := none }
  else
    let cmd := toUnsignedInt prhs0
    let rc := (joyGetPos cmd).1
    let joy := (joyGetPos cmd).2
    let called := [Event.joyGetPos cmd]
    if rc ≠ K.JOYERR_NOERROR then
      if toInt rc = K.MMSYSERR_NODRIVER then
        raise (called ++ [failedCall cmd])
          "The joystick driver is not present or active on this system! [MMSYSERR_NODRIVER]"
      else if toInt rc = K.JOYERR_NOCANDO then
        raise (called ++ [failedCall cmd])
          "Some system service for joystick support is not present or active on this system! [JOYERR_NOCANDO]"
      else if toInt rc = K.MMSYSERR_INVALPARAM ∨ toInt rc = K.JOYERR_PARMS then
        { trace := called, plhs0 := some (toInt8 0), plhs1 := some (toInt8 0),
          plhs2 := some (toUInt8 0), error := none }
      else if toInt rc = K.JOYERR_UNPLUGGED then
        raise (called ++ [failedCall cmd])
          "The specified joystick is not connected to the system! [JOYERR_UNPLUGGED]"
      else
        raise (called ++ [failedCall cmd,
            .mexPrintf "Return code of failed joystick call is %i.\n" [.int (toInt rc)]])
          "Unknown error! See return code above."
    else
      { trace := called, plhs0 := some (normalizeX joy.wXpos),
        plhs1 := some (normalizeY joy.wYpos),
        plhs2 := some (packButtons K joy.wButtons), error := none }

/-- Nearest integer to `q`, a tie going upwards. -/
def roundHalfUp (q : ℚ) : ℤ := ⌊q + 1 / 2⌋

/-- A function `rnd` rounds to a nearest integer, whatever it does at a tie:
its value is never further than one half from its argument. -/
def RoundsToNearest (rnd : ℚ → ℤ) : Prop := ∀ q : ℚ, |(rnd q : ℚ) - q| ≤ 1 / 2

/-! ## Rounding lemmas -/

lemma abs_roundHalfEven_sub_le (q : ℚ) : |(roundHalfEven q : ℚ) - q| ≤ 1 / 2 := by
  have h1 := Int.floor_le q
  have h2 := Int.lt_floor_add_one q
  unfold roundHalfEven
  simp only
  split_ifs with a b c
  · rw [abs_le]; constructor <;> linarith
  · rw [abs_le]; push_cast; constructor <;> linarith
  · rw [abs_le]; constructor <;> linarith
  · rw [abs_le]; push_cast; constructor <;> linarith

lemma ulpExp_le (q : ℚ) (hq : |q| < 8) : ulpExp q ≤ -50 := by
  unfold ulpExp
  have hlog : Int.log 2 |q| ≤ 2 := by
    rcases eq_or_lt_of_le (abs_nonneg q) with h0 | hpos
    · rw [← h0, Int.log_of_right_le_zero 2 le_rfl]; norm_num
    · have : Int.log 2 |q| < 3 := by
        rw [← Int.lt_zpow_iff_log_lt (by norm_num) hpos]
        norm_num
        exact hq
      omega
  omega

lemma abs_roundToDouble_sub_le (q : ℚ) (hq : |q| < 8) :
    |roundToDouble q - q| ≤ 1 / 2 ^ 51 := by
  unfold roundToDouble
  have hu : (0 : ℚ) < 2 ^ ulpExp q := by positivity
  have hle : (2 : ℚ) ^ ulpExp q ≤ 2 ^ (-50 : ℤ) :=
    zpow_le_zpow_right₀ (by norm_num) (ulpExp_le q hq)
  have h := abs_roundHalfEven_sub_le (q / 2 ^ ulpExp q)
  have e : (roundHalfEven (q / 2 ^ ulpExp q) : ℚ) * 2 ^ ulpExp q - q
      = ((roundHalfEven (q / 2 ^ ulpExp q) : ℚ) - q / 2 ^ ulpExp q) * 2 ^ ulpExp q := by
    field_simp
  rw [e, abs_mul, abs_of_pos hu]
  calc |(roundHalfEven (q / 2 ^ ulpExp q) : ℚ) - q / 2 ^ ulpExp q| * 2 ^ ulpExp q
      ≤ 1 / 2 * 2 ^ ulpExp q := by gcongr
    _ ≤ 1 / 2 * 2 ^ (-50 : ℤ) := by gcongr
    _ = 1 / 2 ^ 51 := by norm_num

/-- The double computed on line 99 differs from the exact quantity by at most
`2 ^ -49`. -/
lemma abs_doubleX_sub_exactX_le (raw : ℕ) (h : raw ≤ 65535) :
    |doubleX raw - exactX raw| ≤ 1 / 2 ^ 49 := by
  have hr0 : (0 : ℚ) ≤ raw := Nat.cast_nonneg raw
  have hr1 : (raw : ℚ) ≤ 65535 := by exact_mod_cast h
  have hq0 : (0 : ℚ) ≤ (raw : ℚ) / 65535 := by positivity
  have hq1 : (raw : ℚ) / 65535 ≤ 1 := by rw [div_le_one (by norm_num)]; exact hr1
  unfold doubleX fsub fmul fdiv exactX MAX_VAL
  have e1 := abs_roundToDouble_sub_le ((raw : ℚ) / 65535)
    (by rw [abs_lt]; constructor <;> linarith)
  rw [abs_le] at e1
  have e2 := abs_roundToDouble_sub_le (roundToDouble ((raw : ℚ) / 65535) * 2)
    (by rw [abs_lt]; norm_num at e1 ⊢; constructor <;> linarith)
  rw [abs_le] at e2
  have e3 := abs_roundToDouble_sub_le
    (roundToDouble (roundToDouble ((raw : ℚ) / 65535) * 2) - 1)
    (by rw [abs_lt]; norm_num at e1 e2 ⊢; constructor <;> linarith)
  rw [abs_le] at e3 ⊢
  norm_num at e1 e2 e3 ⊢
  constructor <;> linarith

/-- The double computed on line 103 differs from the exact quantity by at most
`2 ^ -49`. -/
lemma abs_doubleY_sub_exactY_le (raw : ℕ) (h : raw ≤ 65535) :
    |doubleY raw - exactY raw| ≤ 1 / 2 ^ 49 := by
  have hr0 : (0 : ℚ) ≤ raw := Nat.cast_nonneg raw
  have hr1 : (raw : ℚ) ≤ 65535 := by exact_mod_cast h
  have hq0 : (0 : ℚ) ≤ (raw : ℚ) / 65535 := by positivity
  have hq1 : (raw : ℚ) / 65535 ≤ 1 := by rw [div_le_one (by norm_num)]; exact hr1
  unfold doubleY fadd fmul fdiv exactY MAX_VAL
  have e1 := abs_roundToDouble_sub_le ((raw : ℚ) / 65535)
    (by rw [abs_lt]; constructor <;> linarith)
  rw [abs_le] at e1
  have e2 := abs_roundToDouble_sub_le (roundToDouble ((raw : ℚ) / 65535) * (-2))
    (by rw [abs_lt]; norm_num at e1 ⊢; constructor <;> linarith)
  rw [abs_le] at e2
  have e3 := abs_roundToDouble_sub_le
    (roundToDouble (roundToDouble ((raw : ℚ) / 65535) * (-2)) + 1)
    (by rw [abs_lt]; norm_num at e1 e2 ⊢; constructor <;> linarith)
  rw [abs_le] at e3 ⊢
  norm_num at e1 e2 e3 ⊢
  constructor <;> linarith

lemma and_two_pow_eq_zero_iff (w i : ℕ) : w &&& 2 ^ i = 0 ↔ w.testBit i = false := by
  constructor
  · intro h
    have := congrArg (fun n => n.testBit i) h
    simpa [Nat.testBit_two_pow] using this
  · intro h
    apply Nat.eq_of_testBit_eq
    intro j
    by_cases hj : i = j
    · subst hj; simp [h]
    · simp [Nat.testBit_two_pow, hj]

lemma testBit_flag_shiftLeft (w i j : ℕ) :
    ((if w &&& 2 ^ i ≠ 0 then 1 else 0) <<< i).testBit j = (decide (i = j) && w.testBit j) := by
  by_cases hb : w.testBit i = false
  · have h0 : w &&& 2 ^ i = 0 := (and_two_pow_eq_zero_iff w i).2 hb
    by_cases hj : i = j
    · subst hj; simp [h0, hb]
    · simp [h0, hj]
  · have h0 : w &&& 2 ^ i ≠ 0 := fun h => hb ((and_two_pow_eq_zero_iff w i).1 h)
    rw [if_pos h0, Nat.one_shiftLeft, Nat.testBit_two_pow]
    by_cases hj : i = j
    · subst hj; simpa using hb
    · simp [hj]

lemma testBit_orButton (out w i j : ℕ) :
    (orButton out w (2 ^ i) i).testBit j
      = (decide (j < 8) && (out.testBit j || (decide (i = j) && w.testBit j))) := by
  unfold orButton toUInt8
  rw [show (256 : ℕ) = 2 ^ 8 by norm_num, Nat.testBit_mod_two_pow, Nat.testBit_or,
    testBit_flag_shiftLeft]

lemma packButtons_eq_mod (K : MMSystem) (hK : K.ButtonBits) (w : ℕ) :
    packButtons K w = w % 256 := by
  obtain ⟨h1, h2, h3, h4, h5, h6, h7, h8⟩ := hK
  unfold packButtons
  simp only [h1, h2, h3, h4, h5, h6, h7, h8]
  apply Nat.eq_of_testBit_eq
  intro j
  rw [show (256 : ℕ) = 2 ^ 8 by norm_num, Nat.testBit_mod_two_pow]
  simp only [testBit_orButton, Nat.zero_testBit]
  by_cases hj : j < 8
  · interval_cases j <;> simp
  · simp [hj]

/-! ## The two normalisations, by range of the raw value -/

lemma exactX_le_of_le (raw : ℕ) (h : raw ≤ 16383) :
    -1 ≤ exactX raw ∧ exactX raw ≤ -32769 / 65535 := by
  have hr0 : (0 : ℚ) ≤ raw := Nat.cast_nonneg raw
  have hr1 : (raw : ℚ) ≤ 16383 := by exact_mod_cast h
  unfold exactX MAX_VAL
  constructor
  · have : (0 : ℚ) ≤ (raw : ℚ) / 65535 := by positivity
    linarith
  · rw [div_mul_eq_mul_div, sub_le_iff_le_add, div_le_iff₀ (by norm_num)]
    linarith

lemma exactX_mid (raw : ℕ) (h1 : 16384 ≤ raw) (h2 : raw ≤ 49151) :
    -32767 / 65535 ≤ exactX raw ∧ exactX raw ≤ 32767 / 65535 := by
  have hr1 : (16384 : ℚ) ≤ raw := by exact_mod_cast h1
  have hr2 : (raw : ℚ) ≤ 49151 := by exact_mod_cast h2
  unfold exactX MAX_VAL
  constructor
  · rw [div_mul_eq_mul_div, le_sub_iff_add_le, le_div_iff₀ (by norm_num)]
    linarith
  · rw [div_mul_eq_mul_div, sub_le_iff_le_add, div_le_iff₀ (by norm_num)]
    linarith

lemma exactX_ge_of_ge (raw : ℕ) (h1 : 49152 ≤ raw) (h2 : raw ≤ 65535) :
    32769 / 65535 ≤ exactX raw ∧ exactX raw ≤ 1 := by
  have hr1 : (49152 : ℚ) ≤ raw := by exact_mod_cast h1
  have hr2 : (raw : ℚ) ≤ 65535 := by exact_mod_cast h2
  unfold exactX MAX_VAL
  constructor
  · rw [div_mul_eq_mul_div, le_sub_iff_add_le, le_div_iff₀ (by norm_num)]
    linarith
  · rw [div_mul_eq_mul_div, sub_le_iff_le_add, div_le_iff₀ (by norm_num)]
    linarith

lemma exactY_eq_neg (raw : ℕ) : exactY raw = -exactX raw := by
  unfold exactY exactX; ring

lemma round_roundsToNearest : RoundsToNearest round := by
  intro q
  unfold round
  split_ifs with h
  · have h1 := Int.floor_le (q + 1 / 2)
    have h2 := Int.lt_floor_add_one (q + 1 / 2)
    rw [abs_le]; constructor <;> linarith
  · have h1 := Int.floor_le (-q + 1 / 2)
    have h2 := Int.lt_floor_add_one (-q + 1 / 2)
    rw [abs_le]; push_cast; constructor <;> linarith

lemma nearest_low (rnd : ℚ → ℤ) (h : RoundsToNearest rnd) (q : ℚ)
    (h1 : -3 / 2 < q) (h2 : q < -1 / 2) : toInt8 (rnd q) = -1 := by
  have hq := h q
  rw [abs_le] at hq
  have a : (-2 : ℚ) < (rnd q : ℚ) := by linarith
  have b : (rnd q : ℚ) < 0 := by linarith
  have a1 : (-2 : ℤ) < rnd q := by exact_mod_cast a
  have b1 : rnd q < 0 := by exact_mod_cast b
  have e : rnd q = -1 := by omega
  rw [e]; rfl

lemma nearest_mid (rnd : ℚ → ℤ) (h : RoundsToNearest rnd) (q : ℚ)
    (h1 : -1 / 2 < q) (h2 : q < 1 / 2) : toInt8 (rnd q) = 0 := by
  have hq := h q
  rw [abs_le] at hq
  have a : (-1 : ℚ) < (rnd q : ℚ) := by linarith
  have b : (rnd q : ℚ) < 1 := by linarith
  have a1 : (-1 : ℤ) < rnd q := by exact_mod_cast a
  have b1 : rnd q < 1 := by exact_mod_cast b
  have e : rnd q = 0 := by omega
  rw [e]; rfl

lemma nearest_high (rnd : ℚ → ℤ) (h : RoundsToNearest rnd) (q : ℚ)
    (h1 : 1 / 2 < q) (h2 : q < 3 / 2) : toInt8 (rnd q) = 1 := by
  have hq := h q
  rw [abs_le] at hq
  have a : (0 : ℚ) < (rnd q : ℚ) := by linarith
  have b : (rnd q : ℚ) < 2 := by linarith
  have a1 : (0 : ℤ) < rnd q := by exact_mod_cast a
  have b1 : rnd q < 2 := by exact_mod_cast b
  have e : rnd q = 1 := by omega
  rw [e]; rfl

lemma doubleX_low (raw : ℕ) (h : raw ≤ 16383) :
    -3 / 2 < doubleX raw ∧ doubleX raw < -1 / 2 := by
  have e := abs_doubleX_sub_exactX_le raw (by omega)
  have v := exactX_le_of_le raw h
  rw [abs_le] at e
  norm_num at e v ⊢
  constructor <;> linarith

lemma doubleX_mid (raw : ℕ) (h1 : 16384 ≤ raw) (h2 : raw ≤ 49151) :
    -1 / 2 < doubleX raw ∧ doubleX raw < 1 / 2 := by
  have e := abs_doubleX_sub_exactX_le raw (by omega)
  have v := exactX_mid raw h1 h2
  rw [abs_le] at e
  norm_num at e v ⊢
  constructor <;> linarith

lemma doubleX_high (raw : ℕ) (h1 : 49152 ≤ raw) (h2 : raw ≤ 65535) :
    1 / 2 < doubleX raw ∧ doubleX raw < 3 / 2 := by
  have e := abs_doubleX_sub_exactX_le raw h2
  have v := exactX_ge_of_ge raw h1 h2
  rw [abs_le] at e
  norm_num at e v ⊢
  constructor <;> linarith

lemma doubleY_low (raw : ℕ) (h : raw ≤ 16383) :
    1 / 2 < doubleY raw ∧ doubleY raw < 3 / 2 := by
  have e := abs_doubleY_sub_exactY_le raw (by omega)
  have v := exactX_le_of_le raw h
  rw [exactY_eq_neg, abs_le] at e
  norm_num at e v ⊢
  constructor <;> linarith

lemma doubleY_mid (raw : ℕ) (h1 : 16384 ≤ raw) (h2 : raw ≤ 49151) :
    -1 / 2 < doubleY raw ∧ doubleY raw < 1 / 2 := by
  have e := abs_doubleY_sub_exactY_le raw (by omega)
  have v := exactX_mid raw h1 h2
  rw [exactY_eq_neg, abs_le] at e
  norm_num at e v ⊢
  constructor <;> linarith

lemma doubleY_high (raw : ℕ) (h1 : 49152 ≤ raw) (h2 : raw ≤ 65535) :
    -3 / 2 < doubleY raw ∧ doubleY raw < -1 / 2 := by
  have e := abs_doubleY_sub_exactY_le raw h2
  have v := exactX_ge_of_ge raw h1 h2
  rw [exactY_eq_neg, abs_le] at e
  norm_num at e v ⊢
  constructor <;> linarith

lemma normalizeX_low (raw : ℕ) (h : raw ≤ 16383) : normalizeX raw = -1 :=
  nearest_low round round_roundsToNearest _ (doubleX_low raw h).1 (doubleX_low raw h).2

lemma normalizeX_mid (raw : ℕ) (h1 : 16384 ≤ raw) (h2 : raw ≤ 49151) : normalizeX raw = 0 :=
  nearest_mid round round_roundsToNearest _ (doubleX_mid raw h1 h2).1 (doubleX_mid raw h1 h2).2

lemma normalizeX_high (raw : ℕ) (h1 : 49152 ≤ raw) (h2 : raw ≤ 65535) : normalizeX raw = 1 :=
  nearest_high round round_roundsToNearest _ (doubleX_high raw h1 h2).1
    (doubleX_high raw h1 h2).2

lemma normalizeY_low (raw : ℕ) (h : raw ≤ 16383) : normalizeY raw = 1 :=
  nearest_high round round_roundsToNearest _ (doubleY_low raw h).1 (doubleY_low raw h).2

lemma normalizeY_mid (raw : ℕ) (h1 : 16384 ≤ raw) (h2 : raw ≤ 49151) : normalizeY raw = 0 :=
  nearest_mid round round_roundsToNearest _ (doubleY_mid raw h1 h2).1 (doubleY_mid raw h1 h2).2

lemma normalizeY_high (raw : ℕ) (h1 : 49152 ≤ raw) (h2 : raw ≤ 65535) : normalizeY raw = -1 :=
  nearest_low round round_roundsToNearest _ (doubleY_high raw h1 h2).1
    (doubleY_high raw h1 h2).2

/-! ## The paths of `mexFunction` -/

lemma toInt_of_lt (u : ℕ) (h : u < 2 ^ 31) : toInt u = (u : ℤ) := by
  unfold toInt
  have e : u % 2 ^ 32 = u := Nat.mod_eq_of_lt (by omega)
  rw [e, if_pos h]

lemma toInt_eq_iff (u c : ℕ) (hu : u < 2 ^ 32) (hc : c < 2 ^ 31) :
    toInt u = (c : ℤ) ↔ u = c := by
  unfold toInt
  have e : u % 2 ^ 32 = u := Nat.mod_eq_of_lt hu
  rw [e]
  split_ifs with h
  · exact Nat.cast_inj
  · constructor
    · intro h'
      have : (u : ℤ) < 2 ^ 32 := by exact_mod_cast hu
      have : (0 : ℤ) ≤ (c : ℤ) := Int.natCast_nonneg c
      omega
    · intro h'; omega

lemma mexFunction_usage (K : MMSystem) (joyGetPos : ℕ → ℕ × JOYINFO) (me : String)
    (nrhs : ℤ) (prhs0 : ℚ) (h : nrhs < 1) :
    mexFunction K joyGetPos me nrhs prhs0 =
      { trace := usage me, plhs0 := none, plhs1 := none, plhs2 := none, error := none } := by
  unfold mexFunction
  rw [if_pos h]

lemma mexFunction_success (K : MMSystem) (joyGetPos : ℕ → ℕ × JOYINFO) (me : String)
    (nrhs : ℤ) (prhs0 : ℚ) (h : 1 ≤ nrhs)
    (hrc : (joyGetPos (toUnsignedInt prhs0)).1 = K.JOYERR_NOERROR) :
    mexFunction K joyGetPos me nrhs prhs0 =
      { trace := [Event.joyGetPos (toUnsignedInt prhs0)],
        plhs0 := some (normalizeX (joyGetPos (toUnsignedInt prhs0)).2.wXpos),
        plhs1 := some (normalizeY (joyGetPos (toUnsignedInt prhs0)).2.wYpos),
        plhs2 := some (packButtons K (joyGetPos (toUnsignedInt prhs0)).2.wButtons),
        error := none } := by
  unfold mexFunction
  rw [if_neg (not_lt.mpr h)]
  simp only [hrc, ne_eq, not_true_eq_false, if_false]

/-- Membership of the codes in `K.codes`, unfolded. -/
lemma MMSystem.Consistent.facts {K : MMSystem} (hK : K.Consistent) :
    (K.JOYERR_NOERROR ≠ K.MMSYSERR_NODRIVER ∧ K.JOYERR_NOERROR ≠ K.JOYERR_NOCANDO ∧
      K.JOYERR_NOERROR ≠ K.MMSYSERR_INVALPARAM ∧ K.JOYERR_NOERROR ≠ K.JOYERR_PARMS ∧
      K.JOYERR_NOERROR ≠ K.JOYERR_UNPLUGGED) ∧
    (K.MMSYSERR_NODRIVER ≠ K.JOYERR_NOCANDO ∧ K.MMSYSERR_NODRIVER ≠ K.MMSYSERR_INVALPARAM ∧
      K.MMSYSERR_NODRIVER ≠ K.JOYERR_PARMS ∧ K.MMSYSERR_NODRIVER ≠ K.JOYERR_UNPLUGGED) ∧
    (K.JOYERR_NOCANDO ≠ K.MMSYSERR_INVALPARAM ∧ K.JOYERR_NOCANDO ≠ K.JOYERR_PARMS ∧
      K.JOYERR_NOCANDO ≠ K.JOYERR_UNPLUGGED) ∧
    (K.MMSYSERR_INVALPARAM ≠ K.JOYERR_PARMS ∧ K.MMSYSERR_INVALPARAM ≠ K.JOYERR_UNPLUGGED) ∧
    K.JOYERR_PARMS ≠ K.JOYERR_UNPLUGGED ∧
    (K.MMSYSERR_NODRIVER < 2 ^ 31 ∧ K.JOYERR_NOCANDO < 2 ^ 31 ∧
      K.MMSYSERR_INVALPARAM < 2 ^ 31 ∧ K.JOYERR_PARMS < 2 ^ 31 ∧
      K.JOYERR_UNPLUGGED < 2 ^ 31) := by
  obtain ⟨hnd, hlt⟩ := hK
  have l1 := hlt K.MMSYSERR_NODRIVER (by simp [MMSystem.codes])
  have l2 := hlt K.JOYERR_NOCANDO (by simp [MMSystem.codes])
  have l3 := hlt K.MMSYSERR_INVALPARAM (by simp [MMSystem.codes])
  have l4 := hlt K.JOYERR_PARMS (by simp [MMSystem.codes])
  have l5 := hlt K.JOYERR_UNPLUGGED (by simp [MMSystem.codes])
  simp only [MMSystem.codes, List.nodup_cons, List.mem_cons, List.mem_singleton, not_or,
    List.not_mem_nil, not_false_eq_true, List.nodup_nil, and_true] at hnd
  tauto

lemma mexFunction_soft (K : MMSystem) (hK : K.Consistent) (joyGetPos : ℕ → ℕ × JOYINFO)
    (me : String) (nrhs : ℤ) (prhs0 : ℚ) (h : 1 ≤ nrhs)
    (hrc : (joyGetPos (toUnsignedInt prhs0)).1 = K.MMSYSERR_INVALPARAM ∨
      (joyGetPos (toUnsignedInt prhs0)).1 = K.JOYERR_PARMS) :
    mexFunction K joyGetPos me nrhs prhs0 =
      { trace := [Event.joyGetPos (toUnsignedInt prhs0)], plhs0 := some 0, plhs1 := some 0,
        plhs2 := some 0, error := none } := by
  obtain ⟨⟨-, -, n3, n4, -⟩, ⟨-, d3, d4, -⟩, ⟨c3, c4, -⟩, -, -, l1, l2, l3, l4, -⟩ := hK.facts
  unfold mexFunction
  rw [if_neg (not_lt.mpr h)]
  rcases hrc with e | e
  · simp only [e, toInt_of_lt _ l3, Nat.cast_inj, ne_eq, Ne.symm n3, not_false_eq_true,
      if_true, Ne.symm d3, Ne.symm c3, if_false, true_or]
    rfl
  · simp only [e, toInt_of_lt _ l4, Nat.cast_inj, ne_eq, Ne.symm n4, not_false_eq_true,
      if_true, Ne.symm d4, Ne.symm c4, if_false, or_true]
    rfl

lemma mexFunction_hard (K : MMSystem) (hK : K.Consistent) (joyGetPos : ℕ → ℕ × JOYINFO)
    (me : String) (nrhs : ℤ) (prhs0 : ℚ) (h : 1 ≤ nrhs)
    (hlt : (joyGetPos (toUnsignedInt prhs0)).1 < 2 ^ 32)
    (h0 : (joyGetPos (toUnsignedInt prhs0)).1 ≠ K.JOYERR_NOERROR)
    (h1 : (joyGetPos (toUnsignedInt prhs0)).1 ≠ K.MMSYSERR_INVALPARAM)
    (h2 : (joyGetPos (toUnsignedInt prhs0)).1 ≠ K.JOYERR_PARMS) :
    ∃ trace msg, mexFunction K joyGetPos me nrhs prhs0 = raise trace msg := by
  obtain ⟨-, -, -, -, -, l1, l2, l3, l4, l5⟩ := hK.facts
  unfold mexFunction
  rw [if_neg (not_lt.mpr h)]
  simp only [ne_eq, h0, not_false_eq_true, if_true, toInt_eq_iff _ _ hlt l3,
    toInt_eq_iff _ _ hlt l4, h1, h2, or_self, if_false]
  split_ifs
  · exact ⟨_, _, rfl⟩
  · exact ⟨_, _, rfl⟩
  · exact ⟨_, _, rfl⟩
  · exact ⟨_, _, rfl⟩

lemma packButtons_zero (K : MMSystem) : packButtons K 0 = 0 := by
  simp [packButtons, orButton, toUInt8]

lemma exactX_ne_half (raw : ℕ) (h : raw ≤ 65535) :
    exactX raw ≠ 1 / 2 ∧ exactX raw ≠ -1 / 2 := by
  rcases Nat.lt_or_ge raw 16384 with a | a
  · have v := exactX_le_of_le raw (by omega)
    constructor <;> intro e <;> rw [e] at v <;> norm_num at v
  · rcases Nat.lt_or_ge raw 49152 with b | b
    · have v := exactX_mid raw a (by omega)
      constructor <;> intro e <;> rw [e] at v <;> norm_num at v
    · have v := exactX_ge_of_ge raw b h
      constructor <;> intro e <;> rw [e] at v <;> norm_num at v

/-- Every rounding to a nearest integer gives the stored x value, on the exact
quantity and on the double alike. -/
lemma nearest_X (rnd : ℚ → ℤ) (hr : RoundsToNearest rnd) (raw : ℕ) (h : raw ≤ 65535) :
    toInt8 (rnd (exactX raw)) = normalizeX raw ∧ toInt8 (rnd (doubleX raw)) = normalizeX raw := by
  rcases Nat.lt_or_ge raw 16384 with a | a
  · have v := exactX_le_of_le raw (by omega)
    have d := doubleX_low raw (by omega)
    rw [normalizeX_low raw (by omega)]
    exact ⟨nearest_low rnd hr _ (by linarith) (by norm_num at v ⊢; linarith),
      nearest_low rnd hr _ d.1 d.2⟩
  · rcases Nat.lt_or_ge raw 49152 with b | b
    · have v := exactX_mid raw a (by omega)
      have d := doubleX_mid raw a (by omega)
      rw [normalizeX_mid raw a (by omega)]
      exact ⟨nearest_mid rnd hr _ (by norm_num at v ⊢; linarith) (by norm_num at v ⊢; linarith),
        nearest_mid rnd hr _ d.1 d.2⟩
    · have v := exactX_ge_of_ge raw b h
      have d := doubleX_high raw b h
      rw [normalizeX_high raw b h]
      exact ⟨nearest_high rnd hr _ (by norm_num at v ⊢; linarith) (by linarith),
        nearest_high rnd hr _ d.1 d.2⟩

/-- Every rounding to a nearest integer gives the stored y value, on the exact
quantity and on the double alike. -/
lemma nearest_Y (rnd : ℚ → ℤ) (hr : RoundsToNearest rnd) (raw : ℕ) (h : raw ≤ 65535) :
    toInt8 (rnd (exactY raw)) = normalizeY raw ∧ toInt8 (rnd (doubleY raw)) = normalizeY raw := by
  rw [exactY_eq_neg]
  rcases Nat.lt_or_ge raw 16384 with a | a
  · have v := exactX_le_of_le raw (by omega)
    have d := doubleY_low raw (by omega)
    rw [normalizeY_low raw (by omega)]
    exact ⟨nearest_high rnd hr _ (by norm_num at v ⊢; linarith) (by linarith),
      nearest_high rnd hr _ d.1 d.2⟩
  · rcases Nat.lt_or_ge raw 49152 with b | b
    · have v := exactX_mid raw a (by omega)
      have d := doubleY_mid raw a (by omega)
      rw [normalizeY_mid raw a (by omega)]
      exact ⟨nearest_mid rnd hr _ (by norm_num at v ⊢; linarith) (by norm_num at v ⊢; linarith),
        nearest_mid rnd hr _ d.1 d.2⟩
    · have v := exactX_ge_of_ge raw b h
      have d := doubleY_high raw b h
      rw [normalizeY_high raw b h]
      exact ⟨nearest_low rnd hr _ (by linarith) (by norm_num at v ⊢; linarith),
        nearest_low rnd hr _ d.1 d.2⟩

/-- The three ranges of a raw value and the pair of values stored for it. -/
lemma normalize_cases (raw : ℕ) (h : raw ≤ 65535) :
    (raw ≤ 16383 ∧ normalizeX raw = -1 ∧ normalizeY raw = 1) ∨
    (16384 ≤ raw ∧ raw ≤ 49151 ∧ normalizeX raw = 0 ∧ normalizeY raw = 0) ∨
    (49152 ≤ raw ∧ normalizeX raw = 1 ∧ normalizeY raw = -1) := by
  rcases Nat.lt_or_ge raw 16384 with a | a
  · exact Or.inl ⟨by omega, normalizeX_low raw (by omega), normalizeY_low raw (by omega)⟩
  · rcases Nat.lt_or_ge raw 49152 with b | b
    · exact Or.inr (Or.inl ⟨a, by omega, normalizeX_mid raw a (by omega),
        normalizeY_mid raw a (by omega)⟩)
    · exact Or.inr (Or.inr ⟨b, normalizeX_high raw b h, normalizeY_high raw b h⟩)

lemma normalizeX_eq_ite (raw : ℕ) (h : raw ≤ 65535) :
    normalizeX raw = if raw ≤ 16383 then -1 else if raw ≤ 49151 then 0 else 1 := by
  rcases normalize_cases raw h with c | c | c
  · rw [c.2.1, if_pos c.1]
  · rw [c.2.2.1, if_neg (by omega), if_pos c.2.1]
  · rw [c.2.1, if_neg (by omega), if_neg (by omega)]

lemma normalizeY_eq_ite (raw : ℕ) (h : raw ≤ 65535) :
    normalizeY raw = if raw ≤ 16383 then 1 else if raw ≤ 49151 then 0 else -1 := by
  rcases normalize_cases raw h with c | c | c
  · rw [c.2.2, if_pos c.1]
  · rw [c.2.2.2, if_neg (by omega), if_pos c.2.1]
  · rw [c.2.2, if_neg (by omega), if_neg (by omega)]

lemma roundHalfEven_roundsToNearest : RoundsToNearest roundHalfEven :=
  abs_roundHalfEven_sub_le

lemma roundHalfUp_roundsToNearest : RoundsToNearest roundHalfUp := by
  intro q
  unfold roundHalfUp
  have h1 := Int.floor_le (q + 1 / 2)
  have h2 := Int.lt_floor_add_one (q + 1 / 2)
  rw [abs_le]; constructor <;> linarith

lemma JOY_BUTTON_eq_two_pow (K : MMSystem) (hB : K.ButtonBits) (i : ℕ) (hi : i < 8) :
    K.JOY_BUTTON i = 2 ^ i := by
  obtain ⟨h1, h2, h3, h4, h5, h6, h7, h8⟩ := hB
  interval_cases i <;> simp [MMSystem.JOY_BUTTON, *]

/-! ## The claims -/

/-- C1: on a successful query whose raw x position is in `0 .. 65535`, the
returned x is the value of line 99, it equals round-half-away-from-zero of the
exact quantity `(raw / 65535) * 2 - 1` cast to `int8_t`, and it is `-1`, `0` or
`1`; raw `0` gives `-1`, raw `65535` gives `1`, raw `32768` gives `0`. -/
theorem mexFunction_x_in_range (K : MMSystem) (joyGetPos : ℕ → ℕ × JOYINFO) (me : String)
    (nrhs : ℤ) (prhs0 : ℚ) (hn : 1 ≤ nrhs)
    (hrc : (joyGetPos (toUnsignedInt prhs0)).1 = K.JOYERR_NOERROR)
    (hx : (joyGetPos (toUnsignedInt prhs0)).2.wXpos ≤ 65535) :
    (mexFunction K joyGetPos me nrhs prhs0).plhs0
        = some (normalizeX (joyGetPos (toUnsignedInt prhs0)).2.wXpos) ∧
      normalizeX (joyGetPos (toUnsignedInt prhs0)).2.wXpos
        = toInt8 (round (exactX (joyGetPos (toUnsignedInt prhs0)).2.wXpos)) ∧
      (normalizeX (joyGetPos (toUnsignedInt prhs0)).2.wXpos = -1 ∨
        normalizeX (joyGetPos (toUnsignedInt prhs0)).2.wXpos = 0 ∨
        normalizeX (joyGetPos (toUnsignedInt prhs0)).2.wXpos = 1) ∧
      normalizeX 0 = -1 ∧ normalizeX 65535 = 1 ∧ normalizeX 32768 = 0 := by
  refine ⟨?_, ?_, ?_, normalizeX_low 0 (by norm_num),
    normalizeX_high 65535 (by norm_num) (by norm_num),
    normalizeX_mid 32768 (by norm_num) (by norm_num)⟩
  · rw [mexFunction_success K joyGetPos me nrhs prhs0 hn hrc]
  · exact ((nearest_X round round_roundsToNearest _ hx).1).symm
  · rcases normalize_cases _ hx with h | h | h
    · exact Or.inl h.2.1
    · exact Or.inr (Or.inl h.2.2.1)
    · exact Or.inr (Or.inr h.2.1)

theorem mexFunction_x_in_range_witness :
    (1 : ℤ) ≤ 1 ∧
    (fixedPlatform 0 ⟨32768, 100, 7, 5⟩ (toUnsignedInt 0)).1 = mmsystem.JOYERR_NOERROR ∧
    (fixedPlatform 0 ⟨32768, 100, 7, 5⟩ (toUnsignedInt 0)).2.wXpos ≤ 65535 ∧
    (mexFunction mmsystem (fixedPlatform 0 ⟨32768, 100, 7, 5⟩) "WinJoystickMex" 1 0).plhs0
      = some (normalizeX 32768) ∧ normalizeX 32768 = 0 :=
  ⟨by decide, rfl, by decide,
    (mexFunction_x_in_range mmsystem (fixedPlatform 0 ⟨32768, 100, 7, 5⟩) "WinJoystickMex" 1 0
      (by decide) rfl (by decide)).1,
    (mexFunction_x_in_range mmsystem (fixedPlatform 0 ⟨32768, 100, 7, 5⟩) "WinJoystickMex" 1 0
      (by decide) rfl (by decide)).2.2.2.2.2⟩

/-- C2: for every raw value in `0 .. 65535` the y normalisation of line 103 is
the negation of the x normalisation of line 99 of the same raw value; raw y `0`
gives `+1` and raw y `65535` gives `-1`. -/
theorem normalizeY_eq_neg_normalizeX (raw : ℕ) (h : raw ≤ 65535) :
    normalizeY raw = -normalizeX raw ∧ normalizeY 0 = 1 ∧ normalizeY 65535 = -1 := by
  refine ⟨?_, normalizeY_low 0 (by norm_num), normalizeY_high 65535 (by norm_num) (by norm_num)⟩
  rcases normalize_cases raw h with c | c | c
  · rw [c.2.1, c.2.2]; rfl
  · rw [c.2.2.1, c.2.2.2]; rfl
  · rw [c.2.1, c.2.2]

theorem normalizeY_eq_neg_normalizeX_witness :
    49152 ≤ 65535 ∧ normalizeY 49152 = -normalizeX 49152 :=
  ⟨by decide, (normalizeY_eq_neg_normalizeX 49152 (by decide)).1⟩

/-- C3: on a successful query the returned button byte is `wButtons mod 256`:
for `i` in `0 .. 7` its bit `i` is set exactly when the flag of button `i + 1`
is set in `wButtons` (which is bit `i` of `wButtons`), and no bit from 8 on is
set. -/
theorem mexFunction_buttons_eq_mod (K : MMSystem) (hB : K.ButtonBits)
    (joyGetPos : ℕ → ℕ × JOYINFO) (me : String) (nrhs : ℤ) (prhs0 : ℚ) (hn : 1 ≤ nrhs)
    (hrc : (joyGetPos (toUnsignedInt prhs0)).1 = K.JOYERR_NOERROR) :
    (mexFunction K joyGetPos me nrhs prhs0).plhs2
        = some ((joyGetPos (toUnsignedInt prhs0)).2.wButtons % 256) ∧
      (∀ i, i < 8 →
        (((joyGetPos (toUnsignedInt prhs0)).2.wButtons % 256).testBit i = true ↔
          (joyGetPos (toUnsignedInt prhs0)).2.wButtons &&& K.JOY_BUTTON i ≠ 0) ∧
        ((joyGetPos (toUnsignedInt prhs0)).2.wButtons % 256).testBit i
          = (joyGetPos (toUnsignedInt prhs0)).2.wButtons.testBit i) ∧
      (∀ i, 8 ≤ i → ((joyGetPos (toUnsignedInt prhs0)).2.wButtons % 256).testBit i = false) := by
  have hbit : ∀ i, ((joyGetPos (toUnsignedInt prhs0)).2.wButtons % 256).testBit i
      = (decide (i < 8) && (joyGetPos (toUnsignedInt prhs0)).2.wButtons.testBit i) := by
    intro i
    rw [show (256 : ℕ) = 2 ^ 8 by norm_num, Nat.testBit_mod_two_pow]
  refine ⟨?_, ?_, ?_⟩
  · rw [mexFunction_success K joyGetPos me nrhs prhs0 hn hrc, packButtons_eq_mod K hB]
  · intro i hi
    have e : ((joyGetPos (toUnsignedInt prhs0)).2.wButtons % 256).testBit i
        = (joyGetPos (toUnsignedInt prhs0)).2.wButtons.testBit i := by
      rw [hbit i]; simp [hi]
    refine ⟨?_, e⟩
    rw [e, JOY_BUTTON_eq_two_pow K hB i hi, ne_eq, and_two_pow_eq_zero_iff]
    simp
  · intro i hi
    rw [hbit i]
    simp [Nat.not_lt.mpr hi]

theorem mexFunction_buttons_eq_mod_witness :
    mmsystem.ButtonBits ∧ (1 : ℤ) ≤ 1 ∧
    (fixedPlatform 0 ⟨0, 0, 0, 773⟩ (toUnsignedInt 2)).1 = mmsystem.JOYERR_NOERROR ∧
    (mexFunction mmsystem (fixedPlatform 0 ⟨0, 0, 0, 773⟩) "WinJoystickMex" 1 2).plhs2
      = some (773 % 256) :=
  ⟨by decide, by decide, rfl,
    (mexFunction_buttons_eq_mod mmsystem (by decide) (fixedPlatform 0 ⟨0, 0, 0, 773⟩)
      "WinJoystickMex" 1 2 (by decide) rfl).1⟩

/-- C4: when the platform answers a call that has an argument with
`MMSYSERR_INVALPARAM` or `JOYERR_PARMS`, the call assigns `x = 0`, `y = 0`,
`buttons = 0` and raises no error, whatever the state buffer holds. -/
theorem mexFunction_invalid_parameter_zero (K : MMSystem) (hK : K.Consistent)
    (joyGetPos : ℕ → ℕ × JOYINFO) (me : String) (nrhs : ℤ) (prhs0 : ℚ) (hn : 1 ≤ nrhs)
    (hrc : (joyGetPos (toUnsignedInt prhs0)).1 = K.MMSYSERR_INVALPARAM ∨
      (joyGetPos (toUnsignedInt prhs0)).1 = K.JOYERR_PARMS) :
    (mexFunction K joyGetPos me nrhs prhs0).plhs0 = some 0 ∧
      (mexFunction K joyGetPos me nrhs prhs0).plhs1 = some 0 ∧
      (mexFunction K joyGetPos me nrhs prhs0).plhs2 = some 0 ∧
      (mexFunction K joyGetPos me nrhs prhs0).error = none := by
  rw [mexFunction_soft K hK joyGetPos me nrhs prhs0 hn hrc]
  exact ⟨rfl, rfl, rfl, rfl⟩

theorem mexFunction_invalid_parameter_zero_witness :
    mmsystem.Consistent ∧ (1 : ℤ) ≤ 1 ∧
    ((fixedPlatform 165 ⟨40000, 9, 3, 255⟩ (toUnsignedInt 16)).1 = mmsystem.MMSYSERR_INVALPARAM ∨
      (fixedPlatform 165 ⟨40000, 9, 3, 255⟩ (toUnsignedInt 16)).1 = mmsystem.JOYERR_PARMS) ∧
    ((mexFunction mmsystem (fixedPlatform 165 ⟨40000, 9, 3, 255⟩) "WinJoystickMex" 1 16).plhs0
        = some 0 ∧
      (mexFunction mmsystem (fixedPlatform 165 ⟨40000, 9, 3, 255⟩) "WinJoystickMex" 1 16).plhs1
        = some 0 ∧
      (mexFunction mmsystem (fixedPlatform 165 ⟨40000, 9, 3, 255⟩) "WinJoystickMex" 1 16).plhs2
        = some 0 ∧
      (mexFunction mmsystem (fixedPlatform 165 ⟨40000, 9, 3, 255⟩) "WinJoystickMex" 1 16).error
        = none) :=
  ⟨by decide, by decide, Or.inr rfl,
    mexFunction_invalid_parameter_zero mmsystem (by decide)
      (fixedPlatform 165 ⟨40000, 9, 3, 255⟩) "WinJoystickMex" 1 16 (by decide) (Or.inr rfl)⟩

/-- C5: a call that has an argument ends in a terminating error, with none of
the three outputs assigned, exactly when the platform result code is none of
`JOYERR_NOERROR`, `MMSYSERR_INVALPARAM`, `JOYERR_PARMS`; for those three codes
it raises nothing and assigns all three outputs. In particular
`JOYERR_UNPLUGGED`, `MMSYSERR_NODRIVER`, `JOYERR_NOCANDO` and every code the
source does not name raise. -/
theorem mexFunction_raises_iff (K : MMSystem) (hK : K.Consistent)
    (joyGetPos : ℕ → ℕ × JOYINFO) (me : String) (nrhs : ℤ) (prhs0 : ℚ) (hn : 1 ≤ nrhs)
    (hlt : (joyGetPos (toUnsignedInt prhs0)).1 < 2 ^ 32) :
    (((mexFunction K joyGetPos me nrhs prhs0).error ≠ none ∧
        (mexFunction K joyGetPos me nrhs prhs0).plhs0 = none ∧
        (mexFunction K joyGetPos me nrhs prhs0).plhs1 = none ∧
        (mexFunction K joyGetPos me nrhs prhs0).plhs2 = none) ↔
      ((joyGetPos (toUnsignedInt prhs0)).1 ≠ K.JOYERR_NOERROR ∧
        (joyGetPos (toUnsignedInt prhs0)).1 ≠ K.MMSYSERR_INVALPARAM ∧
        (joyGetPos (toUnsignedInt prhs0)).1 ≠ K.JOYERR_PARMS)) ∧
    (((joyGetPos (toUnsignedInt prhs0)).1 = K.JOYERR_NOERROR ∨
        (joyGetPos (toUnsignedInt prhs0)).1 = K.MMSYSERR_INVALPARAM ∨
        (joyGetPos (toUnsignedInt prhs0)).1 = K.JOYERR_PARMS) →
      (mexFunction K joyGetPos me nrhs prhs0).error = none ∧
        (mexFunction K joyGetPos me nrhs prhs0).plhs0 ≠ none ∧
        (mexFunction K joyGetPos me nrhs prhs0).plhs1 ≠ none ∧
        (mexFunction K joyGetPos me nrhs prhs0).plhs2 ≠ none) ∧
    (((joyGetPos (toUnsignedInt prhs0)).1 = K.JOYERR_UNPLUGGED ∨
        (joyGetPos (toUnsignedInt prhs0)).1 = K.MMSYSERR_NODRIVER ∨
        (joyGetPos (toUnsignedInt prhs0)).1 = K.JOYERR_NOCANDO ∨
        (joyGetPos (toUnsignedInt prhs0)).1 ∉ K.codes) →
      (mexFunction K joyGetPos me nrhs prhs0).error ≠ none) := by
  obtain ⟨⟨n1, n2, n3, n4, n5⟩, ⟨-, d3, d4, -⟩, ⟨c3, c4, -⟩, ⟨-, u3⟩, u4, -⟩ := hK.facts
  have hard : ((joyGetPos (toUnsignedInt prhs0)).1 ≠ K.JOYERR_NOERROR ∧
        (joyGetPos (toUnsignedInt prhs0)).1 ≠ K.MMSYSERR_INVALPARAM ∧
        (joyGetPos (toUnsignedInt prhs0)).1 ≠ K.JOYERR_PARMS) →
      ((mexFunction K joyGetPos me nrhs prhs0).error ≠ none ∧
        (mexFunction K joyGetPos me nrhs prhs0).plhs0 = none ∧
        (mexFunction K joyGetPos me nrhs prhs0).plhs1 = none ∧
        (mexFunction K joyGetPos me nrhs prhs0).plhs2 = none) := by
    rintro ⟨h0, h1, h2⟩
    obtain ⟨t, m, e⟩ := mexFunction_hard K hK joyGetPos me nrhs prhs0 hn hlt h0 h1 h2
    rw [e]
    exact ⟨by simp [raise], rfl, rfl, rfl⟩
  have soft : ((joyGetPos (toUnsignedInt prhs0)).1 = K.JOYERR_NOERROR ∨
        (joyGetPos (toUnsignedInt prhs0)).1 = K.MMSYSERR_INVALPARAM ∨
        (joyGetPos (toUnsignedInt prhs0)).1 = K.JOYERR_PARMS) →
      (mexFunction K joyGetPos me nrhs prhs0).error = none ∧
        (mexFunction K joyGetPos me nrhs prhs0).plhs0 ≠ none ∧
        (mexFunction K joyGetPos me nrhs prhs0).plhs1 ≠ none ∧
        (mexFunction K joyGetPos me nrhs prhs0).plhs2 ≠ none := by
    rintro (h | h)
    · rw [mexFunction_success K joyGetPos me nrhs prhs0 hn h]
      exact ⟨rfl, by simp, by simp, by simp⟩
    · rw [mexFunction_soft K hK joyGetPos me nrhs prhs0 hn h]
      exact ⟨rfl, by simp, by simp, by simp⟩
  refine ⟨⟨?_, hard⟩, soft, ?_⟩
  · rintro ⟨he, -⟩
    by_contra hc
    have : (joyGetPos (toUnsignedInt prhs0)).1 = K.JOYERR_NOERROR ∨
        (joyGetPos (toUnsignedInt prhs0)).1 = K.MMSYSERR_INVALPARAM ∨
        (joyGetPos (toUnsignedInt prhs0)).1 = K.JOYERR_PARMS := by tauto
    exact he (soft this).1
  · intro h
    refine (hard ?_).1
    rcases h with h | h | h | h
    · rw [h]; exact ⟨Ne.symm n5, Ne.symm u3, Ne.symm u4⟩
    · rw [h]; exact ⟨Ne.symm n1, d3, d4⟩
    · rw [h]; exact ⟨Ne.symm n2, c3, c4⟩
    · simp only [MMSystem.codes, List.mem_cons, List.mem_singleton, List.not_mem_nil,
        or_false, not_or] at h
      exact ⟨h.1, h.2.2.2.1, h.2.2.2.2.1⟩

theorem mexFunction_raises_iff_witness :
    mmsystem.Consistent ∧ (1 : ℤ) ≤ 1 ∧
    (fixedPlatform 167 ⟨1, 2, 3, 4⟩ (toUnsignedInt 1)).1 < 2 ^ 32 ∧
    (mexFunction mmsystem (fixedPlatform 167 ⟨1, 2, 3, 4⟩) "WinJoystickMex" 1 1).error
      ≠ none :=
  ⟨by decide, by decide, by decide,
    (mexFunction_raises_iff mmsystem (by decide) (fixedPlatform 167 ⟨1, 2, 3, 4⟩)
      "WinJoystickMex" 1 1 (by decide) (by decide)).2.2 (Or.inl rfl)⟩

/-- C6: a call with no input argument (`nrhs < 1`) prints the usage text and
nothing else, assigns none of the three outputs, raises no error, and makes no
platform query. -/
theorem mexFunction_no_argument (K : MMSystem) (joyGetPos : ℕ → ℕ × JOYINFO) (me : String)
    (nrhs : ℤ) (prhs0 : ℚ) (hn : nrhs < 1) :
    (mexFunction K joyGetPos me nrhs prhs0).trace = usage me ∧
      (mexFunction K joyGetPos me nrhs prhs0).plhs0 = none ∧
      (mexFunction K joyGetPos me nrhs prhs0).plhs1 = none ∧
      (mexFunction K joyGetPos me nrhs prhs0).plhs2 = none ∧
      (mexFunction K joyGetPos me nrhs prhs0).error = none ∧
      ∀ uJoyID, Event.joyGetPos uJoyID ∉ (mexFunction K joyGetPos me nrhs prhs0).trace := by
  rw [mexFunction_usage K joyGetPos me nrhs prhs0 hn]
  refine ⟨rfl, rfl, rfl, rfl, rfl, ?_⟩
  intro uJoyID
  simp [usage]

theorem mexFunction_no_argument_witness :
    (0 : ℤ) < 1 ∧
    (mexFunction mmsystem (fixedPlatform 0 ⟨1, 2, 3, 4⟩) "WinJoystickMex" 0 0).trace
      = usage "WinJoystickMex" ∧
    (mexFunction mmsystem (fixedPlatform 0 ⟨1, 2, 3, 4⟩) "WinJoystickMex" 0 0).plhs0 = none :=
  ⟨by decide,
    (mexFunction_no_argument mmsystem (fixedPlatform 0 ⟨1, 2, 3, 4⟩) "WinJoystickMex" 0 0
      (by decide)).1,
    (mexFunction_no_argument mmsystem (fixedPlatform 0 ⟨1, 2, 3, 4⟩) "WinJoystickMex" 0 0
      (by decide)).2.1⟩

/-- C7: two calls with an argument for which the platform reports success and
the same `wXpos`, `wYpos`, `wButtons` leave the same x, y, buttons and no
error, whatever the device index, the third axis, the argument count and the
platform otherwise are: the result is a function of the reported state alone. -/
theorem mexFunction_success_deterministic (K : MMSystem)
    (joyGetPos₁ joyGetPos₂ : ℕ → ℕ × JOYINFO) (me₁ me₂ : String) (nrhs₁ nrhs₂ : ℤ)
    (prhs0₁ prhs0₂ : ℚ) (hn₁ : 1 ≤ nrhs₁) (hn₂ : 1 ≤ nrhs₂)
    (hrc₁ : (joyGetPos₁ (toUnsignedInt prhs0₁)).1 = K.JOYERR_NOERROR)
    (hrc₂ : (joyGetPos₂ (toUnsignedInt prhs0₂)).1 = K.JOYERR_NOERROR)
    (hx : (joyGetPos₁ (toUnsignedInt prhs0₁)).2.wXpos
      = (joyGetPos₂ (toUnsignedInt prhs0₂)).2.wXpos)
    (hy : (joyGetPos₁ (toUnsignedInt prhs0₁)).2.wYpos
      = (joyGetPos₂ (toUnsignedInt prhs0₂)).2.wYpos)
    (hb : (joyGetPos₁ (toUnsignedInt prhs0₁)).2.wButtons
      = (joyGetPos₂ (toUnsignedInt prhs0₂)).2.wButtons) :
    (mexFunction K joyGetPos₁ me₁ nrhs₁ prhs0₁).plhs0
        = (mexFunction K joyGetPos₂ me₂ nrhs₂ prhs0₂).plhs0 ∧
      (mexFunction K joyGetPos₁ me₁ nrhs₁ prhs0₁).plhs1
        = (mexFunction K joyGetPos₂ me₂ nrhs₂ prhs0₂).plhs1 ∧
      (mexFunction K joyGetPos₁ me₁ nrhs₁ prhs0₁).plhs2
        = (mexFunction K joyGetPos₂ me₂ nrhs₂ prhs0₂).plhs2 ∧
      (mexFunction K joyGetPos₁ me₁ nrhs₁ prhs0₁).error
        = (mexFunction K joyGetPos₂ me₂ nrhs₂ prhs0₂).error ∧
      (mexFunction K joyGetPos₁ me₁ nrhs₁ prhs0₁).plhs0 ≠ none ∧
      (mexFunction K joyGetPos₁ me₁ nrhs₁ prhs0₁).error = none := by
  rw [mexFunction_success K joyGetPos₁ me₁ nrhs₁ prhs0₁ hn₁ hrc₁,
    mexFunction_success K joyGetPos₂ me₂ nrhs₂ prhs0₂ hn₂ hrc₂]
  simp [hx, hy, hb]

theorem mexFunction_success_deterministic_witness :
    (1 : ℤ) ≤ 1 ∧ (1 : ℤ) ≤ 2 ∧
    (fixedPlatform 0 ⟨500, 60000, 7, 3⟩ (toUnsignedInt 0)).1 = mmsystem.JOYERR_NOERROR ∧
    (fixedPlatform 0 ⟨500, 60000, 9, 3⟩ (toUnsignedInt 1)).1 = mmsystem.JOYERR_NOERROR ∧
    (mexFunction mmsystem (fixedPlatform 0 ⟨500, 60000, 7, 3⟩) "WinJoystickMex" 1 0).plhs0
      = (mexFunction mmsystem (fixedPlatform 0 ⟨500, 60000, 9, 3⟩) "WinJoystickMex" 2 1).plhs0 ∧
    (mexFunction mmsystem (fixedPlatform 0 ⟨500, 60000, 7, 3⟩) "WinJoystickMex" 1 0).plhs2
      = (mexFunction mmsystem (fixedPlatform 0 ⟨500, 60000, 9, 3⟩) "WinJoystickMex" 2 1).plhs2 :=
  ⟨by decide, by decide, rfl, rfl,
    (mexFunction_success_deterministic mmsystem (fixedPlatform 0 ⟨500, 60000, 7, 3⟩)
      (fixedPlatform 0 ⟨500, 60000, 9, 3⟩) "WinJoystickMex" "WinJoystickMex" 1 2 0 1
      (by decide) (by decide) rfl rfl rfl rfl rfl).1,
    (mexFunction_success_deterministic mmsystem (fixedPlatform 0 ⟨500, 60000, 7, 3⟩)
      (fixedPlatform 0 ⟨500, 60000, 9, 3⟩) "WinJoystickMex" "WinJoystickMex" 1 2 0 1
      (by decide) (by decide) rfl rfl rfl rfl rfl).2.2.1⟩

/-- C8: on a successful query whose raw x position is in `0 .. 65535`, the
returned x is `-1` exactly when `raw ≤ 16383`, `0` exactly when
`16384 ≤ raw ≤ 49151`, and `1` exactly when `49152 ≤ raw`; so the x
normalisation is monotone non-decreasing in the raw value and the y
normalisation monotone non-increasing. -/
theorem mexFunction_x_thresholds (K : MMSystem) (joyGetPos : ℕ → ℕ × JOYINFO) (me : String)
    (nrhs : ℤ) (prhs0 : ℚ) (hn : 1 ≤ nrhs)
    (hrc : (joyGetPos (toUnsignedInt prhs0)).1 = K.JOYERR_NOERROR)
    (hx : (joyGetPos (toUnsignedInt prhs0)).2.wXpos ≤ 65535) :
    ((mexFunction K joyGetPos me nrhs prhs0).plhs0 = some (-1) ↔
        (joyGetPos (toUnsignedInt prhs0)).2.wXpos ≤ 16383) ∧
      ((mexFunction K joyGetPos me nrhs prhs0).plhs0 = some 0 ↔
        16384 ≤ (joyGetPos (toUnsignedInt prhs0)).2.wXpos ∧
          (joyGetPos (toUnsignedInt prhs0)).2.wXpos ≤ 49151) ∧
      ((mexFunction K joyGetPos me nrhs prhs0).plhs0 = some 1 ↔
        49152 ≤ (joyGetPos (toUnsignedInt prhs0)).2.wXpos) ∧
      (∀ a b : ℕ, a ≤ b → b ≤ 65535 →
        normalizeX a ≤ normalizeX b ∧ normalizeY b ≤ normalizeY a) := by
  rw [mexFunction_success K joyGetPos me nrhs prhs0 hn hrc]
  simp only [Option.some.injEq]
  refine ⟨?_, ?_, ?_, ?_⟩
  · rcases normalize_cases _ hx with c | c | c
    · rw [c.2.1]; simp [c.1]
    · rw [c.2.2.1]; constructor
      · intro h; norm_num at h
      · intro h; omega
    · rw [c.2.1]; constructor
      · intro h; norm_num at h
      · intro h; omega
  · rcases normalize_cases _ hx with c | c | c
    · rw [c.2.1]; constructor
      · intro h; norm_num at h
      · intro h; omega
    · rw [c.2.2.1]; simp [c.1, c.2.1]
    · rw [c.2.1]; constructor
      · intro h; norm_num at h
      · intro h; omega
  · rcases normalize_cases _ hx with c | c | c
    · rw [c.2.1]; constructor
      · intro h; norm_num at h
      · intro h; omega
    · rw [c.2.2.1]; constructor
      · intro h; norm_num at h
      · intro h; omega
    · rw [c.2.1]; simp [c.1]
  · intro a b hab hb
    rw [normalizeX_eq_ite a (by omega), normalizeX_eq_ite b hb,
      normalizeY_eq_ite a (by omega), normalizeY_eq_ite b hb]
    constructor <;> split_ifs <;> omega

theorem mexFunction_x_thresholds_witness :
    (1 : ℤ) ≤ 1 ∧
    (fixedPlatform 0 ⟨16384, 0, 0, 0⟩ (toUnsignedInt 0)).1 = mmsystem.JOYERR_NOERROR ∧
    (fixedPlatform 0 ⟨16384, 0, 0, 0⟩ (toUnsignedInt 0)).2.wXpos ≤ 65535 ∧
    ((mexFunction mmsystem (fixedPlatform 0 ⟨16384, 0, 0, 0⟩) "WinJoystickMex" 1 0).plhs0
        = some 0 ↔
      16384 ≤ (fixedPlatform 0 ⟨16384, 0, 0, 0⟩ (toUnsignedInt 0)).2.wXpos ∧
        (fixedPlatform 0 ⟨16384, 0, 0, 0⟩ (toUnsignedInt 0)).2.wXpos ≤ 49151) :=
  ⟨by decide, rfl, by decide,
    (mexFunction_x_thresholds mmsystem (fixedPlatform 0 ⟨16384, 0, 0, 0⟩) "WinJoystickMex" 1 0
      (by decide) rfl (by decide)).2.1⟩

/-- C9: a successful query reporting `wXpos = 32768`, `wYpos = 32768`,
`wButtons = 0` returns `(0, 0, 0)` with no error, and so does a query the
platform answers with an invalid-parameter code: the outputs and the error
slot of the two calls coincide. -/
theorem mexFunction_zero_tuple_ambiguous (K : MMSystem) (hK : K.Consistent)
    (joyGetPos₁ joyGetPos₂ : ℕ → ℕ × JOYINFO) (me : String) (nrhs₁ nrhs₂ : ℤ)
    (prhs0₁ prhs0₂ : ℚ) (hn₁ : 1 ≤ nrhs₁) (hn₂ : 1 ≤ nrhs₂)
    (hrc₁ : (joyGetPos₁ (toUnsignedInt prhs0₁)).1 = K.JOYERR_NOERROR)
    (hx : (joyGetPos₁ (toUnsignedInt prhs0₁)).2.wXpos = 32768)
    (hy : (joyGetPos₁ (toUnsignedInt prhs0₁)).2.wYpos = 32768)
    (hb : (joyGetPos₁ (toUnsignedInt prhs0₁)).2.wButtons = 0)
    (hrc₂ : (joyGetPos₂ (toUnsignedInt prhs0₂)).1 = K.MMSYSERR_INVALPARAM ∨
      (joyGetPos₂ (toUnsignedInt prhs0₂)).1 = K.JOYERR_PARMS) :
    ((mexFunction K joyGetPos₁ me nrhs₁ prhs0₁).plhs0 = some 0 ∧
      (mexFunction K joyGetPos₁ me nrhs₁ prhs0₁).plhs1 = some 0 ∧
      (mexFunction K joyGetPos₁ me nrhs₁ prhs0₁).plhs2 = some 0 ∧
      (mexFunction K joyGetPos₁ me nrhs₁ prhs0₁).error = none) ∧
    ((mexFunction K joyGetPos₂ me nrhs₂ prhs0₂).plhs0
        = (mexFunction K joyGetPos₁ me nrhs₁ prhs0₁).plhs0 ∧
      (mexFunction K joyGetPos₂ me nrhs₂ prhs0₂).plhs1
        = (mexFunction K joyGetPos₁ me nrhs₁ prhs0₁).plhs1 ∧
      (mexFunction K joyGetPos₂ me nrhs₂ prhs0₂).plhs2
        = (mexFunction K joyGetPos₁ me nrhs₁ prhs0₁).plhs2 ∧
      (mexFunction K joyGetPos₂ me nrhs₂ prhs0₂).error
        = (mexFunction K joyGetPos₁ me nrhs₁ prhs0₁).error) := by
  rw [mexFunction_success K joyGetPos₁ me nrhs₁ prhs0₁ hn₁ hrc₁,
    mexFunction_soft K hK joyGetPos₂ me nrhs₂ prhs0₂ hn₂ hrc₂, hx, hy, hb,
    normalizeX_mid 32768 (by norm_num) (by norm_num),
    normalizeY_mid 32768 (by norm_num) (by norm_num), packButtons_zero]
  exact ⟨⟨rfl, rfl, rfl, rfl⟩, rfl, rfl, rfl, rfl⟩

theorem mexFunction_zero_tuple_ambiguous_witness :
    mmsystem.Consistent ∧ (1 : ℤ) ≤ 1 ∧
    (fixedPlatform 0 ⟨32768, 32768, 0, 0⟩ (toUnsignedInt 0)).1 = mmsystem.JOYERR_NOERROR ∧
    ((fixedPlatform 11 ⟨1, 2, 3, 4⟩ (toUnsignedInt 16)).1 = mmsystem.MMSYSERR_INVALPARAM ∨
      (fixedPlatform 11 ⟨1, 2, 3, 4⟩ (toUnsignedInt 16)).1 = mmsystem.JOYERR_PARMS) ∧
    (mexFunction mmsystem (fixedPlatform 0 ⟨32768, 32768, 0, 0⟩) "WinJoystickMex" 1 0).plhs0
      = some 0 ∧
    (mexFunction mmsystem (fixedPlatform 11 ⟨1, 2, 3, 4⟩) "WinJoystickMex" 1 16).plhs0
      = (mexFunction mmsystem (fixedPlatform 0 ⟨32768, 32768, 0, 0⟩) "WinJoystickMex" 1 0).plhs0 :=
  ⟨by decide, by decide, rfl, Or.inl rfl,
    (mexFunction_zero_tuple_ambiguous mmsystem (by decide)
      (fixedPlatform 0 ⟨32768, 32768, 0, 0⟩) (fixedPlatform 11 ⟨1, 2, 3, 4⟩) "WinJoystickMex"
      1 1 0 16 (by decide) (by decide) rfl rfl rfl rfl (Or.inl rfl)).1.1,
    (mexFunction_zero_tuple_ambiguous mmsystem (by decide)
      (fixedPlatform 0 ⟨32768, 32768, 0, 0⟩) (fixedPlatform 11 ⟨1, 2, 3, 4⟩) "WinJoystickMex"
      1 1 0 16 (by decide) (by decide) rfl rfl rfl rfl (Or.inl rfl)).2.1⟩

/-- C10: for every raw value in `0 .. 65535` the exact quantities
`(raw / 65535) * 2 - 1` and `(raw / 65535) * -2 + 1` are never `1/2` or `-1/2`,
and every function that rounds to a nearest integer (half away from zero, half
to even and half up are such functions) yields the stored x and y, applied to
the exact quantity or to the double the program computes. -/
theorem normalize_tie_free (raw : ℕ) (h : raw ≤ 65535) :
    (exactX raw ≠ 1 / 2 ∧ exactX raw ≠ -1 / 2 ∧ exactY raw ≠ 1 / 2 ∧ exactY raw ≠ -1 / 2) ∧
    (∀ rnd : ℚ → ℤ, RoundsToNearest rnd →
      toInt8 (rnd (exactX raw)) = normalizeX raw ∧
      toInt8 (rnd (doubleX raw)) = normalizeX raw ∧
      toInt8 (rnd (exactY raw)) = normalizeY raw ∧
      toInt8 (rnd (doubleY raw)) = normalizeY raw) ∧
    (RoundsToNearest round ∧ RoundsToNearest roundHalfEven ∧ RoundsToNearest roundHalfUp) := by
  refine ⟨⟨(exactX_ne_half raw h).1, (exactX_ne_half raw h).2, ?_, ?_⟩, ?_,
    round_roundsToNearest, roundHalfEven_roundsToNearest, roundHalfUp_roundsToNearest⟩
  · rw [exactY_eq_neg]
    intro e
    exact (exactX_ne_half raw h).2 (by linarith)
  · rw [exactY_eq_neg]
    intro e
    exact (exactX_ne_half raw h).1 (by linarith)
  · intro rnd hr
    exact ⟨(nearest_X rnd hr raw h).1, (nearest_X rnd hr raw h).2,
      (nearest_Y rnd hr raw h).1, (nearest_Y rnd hr raw h).2⟩

theorem normalize_tie_free_witness :
    16383 ≤ 65535 ∧ exactX 16383 ≠ -1 / 2 ∧
    toInt8 (roundHalfEven (doubleX 16383)) = normalizeX 16383 :=
  ⟨by decide, (normalize_tie_free 16383 (by decide)).1.2.1,
    ((normalize_tie_free 16383 (by decide)).2.1 roundHalfEven
      (normalize_tie_free 16383 (by decide)).2.2.2.1).2.1⟩

end WinJoystickMex
